import Mathlib

set_option maxRecDepth 10000

/-!
Shallow embedding of the city-traffic-insights backend core
(`src/services/traffic.js`, `src/services/localStore.js`,
`src/controllers/traffic.js`) and proofs of the spec claims.

Numeric values are modelled over `ℚ`; epoch timestamps over `ℤ`
(milliseconds); JS `Map` insertion-order aggregation is modelled by
first-occurrence id lists; string query parameters by `Option String`
(`none` = absent, the empty string is falsy as in JS). JS string
`trim`/`toLowerCase` are modelled on ASCII characters (all city names and
aliases in the code are ASCII).
-/

/-- ASCII lowercasing of a character, as JS `toLowerCase` acts on ASCII. -/
def asciiLowerChar (c : Char) : Char :=
  if 65 ≤ c.toNat ∧ c.toNat ≤ 90 then Char.ofNat (c.toNat + 32) else c

/-- JS `String.prototype.toLowerCase` restricted to ASCII input. -/
def jsToLower (s : String) : String := String.mk (s.toList.map asciiLowerChar)

/-- Whitespace removed by JS `String.prototype.trim`. -/
def isJsSpace (c : Char) : Bool :=
  c = ' ' ∨ c = '\t' ∨ c = '\n' ∨ c = '\r' ∨ c = '\x0b' ∨ c = '\x0c'

/-- JS `String.prototype.trim`: strip leading and trailing whitespace. -/
def jsTrim (s : String) : String :=
  String.mk (((s.toList.dropWhile isJsSpace).reverse.dropWhile isJsSpace).reverse)

/-- Default city constant (`DEFAULT_CITY` in services/traffic.js). -/
def DEFAULT_CITY : String := "Bangalore"

/-- The allowed city enum checked by `validateCity`. -/
def allowedCities : List String := ["Bangalore", "Mumbai", "Delhi"]

/-- `normalizeCity` from services/traffic.js lines 25-32: falsy input maps to
the default; otherwise trim + lowercase is compared against city names and
aliases; anything unrecognized maps to the default city. -/
def normalizeCity (input : Option String) : String :=
  match input with
  | none => DEFAULT_CITY
  | some s =>
    if s = "" then DEFAULT_CITY
    else
      let v := jsToLower (jsTrim s)
      if v = "bangalore" ∨ v = "blr" then "Bangalore"
      else if v = "mumbai" ∨ v = "bom" then "Mumbai"
      else if v = "delhi" ∨ v = "ncr" then "Delhi"
      else DEFAULT_CITY

/-- Result record of `validateCity` (services/traffic.js lines 40-52). -/
structure ValidationResult where
  valid : Bool
  normalized : Option String
  error : Option String
deriving Repr, DecidableEq

/-- `validateCity` from services/traffic.js lines 40-52: missing/blank input
is valid with the default; otherwise the input is normalized and the result
checked against the allowed enum. -/
def validateCity (raw : Option String) : ValidationResult :=
  match raw with
  | none => ⟨true, some DEFAULT_CITY, none⟩
  | some s =>
    if jsTrim s = "" then ⟨true, some DEFAULT_CITY, none⟩
    else
      let normalized := normalizeCity (some s)
      if normalized ∈ allowedCities then ⟨true, some normalized, none⟩
      else ⟨false, none, some "city must be one of: Bangalore, Mumbai, Delhi"⟩

/-- HTTP status of `TrafficController.live` as a function of the city query
parameter (controllers/traffic.js lines 18-23): 400 iff validation fails,
200 otherwise (snapshot served). -/
def liveStatus (city : Option String) : ℕ :=
  if (validateCity city).valid then 200 else 400

/-- The range of `normalizeCity` is contained in the allowed city enum. -/
theorem normalizeCity_mem (input : Option String) :
    normalizeCity input ∈ allowedCities := by
  cases input with
  | none => simp [normalizeCity, allowedCities, DEFAULT_CITY]
  | some s =>
    simp only [normalizeCity]
    split_ifs <;> simp [allowedCities, DEFAULT_CITY]

/-- `validateCity` accepts every input: the rejecting branch is unreachable
because `normalizeCity` only ever returns allowed cities. -/
theorem validateCity_always_valid (raw : Option String) :
    (validateCity raw).valid = true := by
  cases raw with
  | none => rfl
  | some s =>
    simp only [validateCity]
    split_ifs with h1 h2
    · rfl
    · rfl
    · exact absurd (normalizeCity_mem (some s)) h2

/-- JS `Math.round` on an exact rational: round half toward positive
infinity, as `Math.round(x) = ⌊x + 0.5⌋`. -/
def jsRound (v : ℚ) : ℤ := ⌊v + 1/2⌋

/-- `round2` helper from services/localStore.js line 696:
`Math.round(v * 100) / 100`. -/
def round2 (v : ℚ) : ℚ := (jsRound (v * 100) : ℚ) / 100

/-- `round3` helper from services/localStore.js line 697:
`Math.round(v * 1000) / 1000`. -/
def round3 (v : ℚ) : ℚ := (jsRound (v * 1000) : ℚ) / 1000

/-- `clamp01` helper from services/localStore.js line 698:
`Math.max(0, Math.min(1, v))`. -/
def clamp01 (v : ℚ) : ℚ := max 0 (min 1 v)

/-- Congestion derivation shared by the snapshot builder
(services/traffic.js lines 186-187) and the trend predictor
(services/localStore.js lines 588-589):
`clamp01(round3((density/80 + (1 - speed/80)) / 2))`. -/
def congestionOf (speed density : ℚ) : ℚ :=
  clamp01 (round3 ((density / 80 + (1 - speed / 80)) / 2))

/-- C10: `normalizeCity` is total with range exactly the three canonical
cities — null/missing, empty, whitespace, aliases and unrecognized strings
such as "Paris" all map to a canonical city (unrecognized and missing map
to Bangalore) — and consequently `validateCity` returns `valid = true` for
every possible input and never produces a validation error. -/
theorem claim_C10_normalize_total_validate_never_fails :
    (∀ input, normalizeCity input ∈ allowedCities)
    ∧ normalizeCity none = "Bangalore"
    ∧ normalizeCity (some "") = "Bangalore"
    ∧ normalizeCity (some "  ") = "Bangalore"
    ∧ normalizeCity (some "blr") = "Bangalore"
    ∧ normalizeCity (some "bom") = "Mumbai"
    ∧ normalizeCity (some "ncr") = "Delhi"
    ∧ normalizeCity (some "Paris") = "Bangalore"
    ∧ (∀ raw, (validateCity raw).valid = true)
    ∧ (∀ raw, (validateCity raw).error = none) := by
  refine ⟨normalizeCity_mem, by decide, by decide, by decide, by decide,
    by decide, by decide, by decide, validateCity_always_valid, ?_⟩
  intro raw
  cases raw with
  | none => rfl
  | some s =>
    simp only [validateCity]
    split_ifs with h1 h2
    · rfl
    · rfl
    · exact absurd (normalizeCity_mem (some s)) h2

/-- C1: evaluation of the code at the claim's failing input `city=Paris`.
The claim says `validateCity` returns `valid = false` and the controller
responds 400; the code instead normalizes "Paris" to "Bangalore", reports
`valid = true`, and `live` serves the request with status 200 — the
rejecting branch of `validateCity` is unreachable. -/
theorem claim_C1_paris_is_served_not_rejected :
    validateCity (some "Paris") =
      ⟨true, some "Bangalore", none⟩
    ∧ liveStatus (some "Paris") = 200
    ∧ ¬((validateCity (some "Paris")).valid = false) := by
  refine ⟨by decide, by decide, by decide⟩

/-- C6: for arbitrary rational speed and density values — including zero,
negative and arbitrarily large ones — the congestion value
`clamp01(round3((density/80 + (1 - speed/80))/2))` produced by the snapshot
builder and both predictors always lies in `[0, 1]`. -/
theorem claim_C6_congestion_always_in_unit_interval :
    ∀ speed density : ℚ,
      0 ≤ congestionOf speed density ∧ congestionOf speed density ≤ 1 := by
  intro speed density
  unfold congestionOf clamp01
  constructor
  · exact le_max_left 0 _
  · exact max_le (by norm_num) (min_le_left 1 _)

/-- One per-segment reading inside a snapshot
(services/traffic.js lines 189-195). -/
structure Feature where
  id : String
  coordinates : List (ℚ × ℚ)
  speedKph : ℚ
  densityVpkm : ℚ
  congestion : ℚ
deriving Repr, DecidableEq

/-- One snapshot over all segments of a city
(services/traffic.js lines 198-204); the timestamp is epoch milliseconds,
the always-empty reserved `incidents` array is omitted. -/
structure Snapshot where
  city : String
  timestamp : ℤ
  features : List Feature
  source : String
deriving Repr, DecidableEq

/-- The bounded history append used by the scheduler
(services/traffic.js lines 136-137) and `getLiveSnapshot` (lines 236-237):
`history.push(snapshot)` followed by
`if (history.length > 500) history.splice(0, history.length - 500)`,
which keeps the last 500 entries. -/
def pushBounded (hist : List Snapshot) (s : Snapshot) : List Snapshot :=
  let h := hist ++ [s]
  if 500 < h.length then h.drop (h.length - 500) else h

/-- A single bounded append keeps the suffix of length at most 500. -/
theorem pushBounded_eq (hist : List Snapshot) (s : Snapshot)
    (h : hist.length ≤ 500) :
    pushBounded hist s = (hist ++ [s]).drop (hist.length + 1 - 500) := by
  unfold pushBounded
  by_cases hlt : 500 < (hist ++ [s]).length
  · rw [if_pos hlt]
    refine congrArg (fun n => List.drop n (hist ++ [s])) ?_
    simp only [List.length_append, List.length_cons, List.length_nil]
  · rw [if_neg hlt]
    simp only [List.length_append, List.length_cons, List.length_nil,
      not_lt] at hlt
    have h0 : hist.length + 1 - 500 = 0 := by omega
    simp [h0]

/-- Folding bounded appends over any sequence of snapshots from a buffer
within the cap yields the trailing window of the concatenation. -/
theorem foldl_pushBounded_eq (ops : List Snapshot) :
    ∀ hist : List Snapshot, hist.length ≤ 500 →
      List.foldl pushBounded hist ops
        = (hist ++ ops).drop (hist.length + ops.length - 500) := by
  induction ops with
  | nil =>
    intro hist h
    have h0 : hist.length - 500 = 0 := by omega
    simp [h0]
  | cons a rest ih =>
    intro hist h
    have hlen : ((hist ++ [a]).drop (hist.length + 1 - 500)).length ≤ 500 := by
      simp only [List.length_drop, List.length_append, List.length_cons,
        List.length_nil]
      omega
    rw [List.foldl_cons, pushBounded_eq hist a h, ih _ hlen,
      show hist ++ a :: rest = (hist ++ [a]) ++ rest by simp]
    set L := hist ++ [a] with hLdef
    have hL : L.length = hist.length + 1 := by simp [hLdef]
    clear_value L
    have hsplit : L.drop (hist.length + 1 - 500) ++ rest
        = (L ++ rest).drop (hist.length + 1 - 500) := by
      rw [List.drop_append_eq_append_drop]
      have h0 : hist.length + 1 - 500 - L.length = 0 := by omega
      rw [h0, List.drop_zero]
    rw [hsplit, List.drop_drop]
    refine congrArg (fun n => List.drop n (L ++ rest)) ?_
    simp only [List.length_drop, hL, List.length_cons]
    omega

/-- C7: for every sequence of scheduler ticks and live-snapshot calls, the
per-city history buffer (starting empty) never holds more than 500
snapshots, and the retained contents are exactly the trailing suffix of all
appends — the oldest (earliest-appended) entries are the ones evicted, so
FIFO order is preserved. -/
theorem claim_C7_buffer_cap_500_fifo_eviction :
    ∀ ops : List Snapshot,
      List.foldl pushBounded [] ops = ops.drop (ops.length - 500)
      ∧ (List.foldl pushBounded [] ops).length ≤ 500
      ∧ (List.foldl pushBounded [] ops).length = min ops.length 500 := by
  intro ops
  have h := foldl_pushBounded_eq ops [] (by simp)
  simp only [List.nil_append, List.length_nil, Nat.zero_add] at h
  refine ⟨h, ?_, ?_⟩
  · rw [h, List.length_drop]; omega
  · rw [h, List.length_drop]; omega

/-- `gaussianPeak` from services/traffic.js lines 425-428:
`exp(-(diff*diff) / (2*width*width))` with `diff = x - center`. -/
noncomputable def gaussianPeak (x center width : ℝ) : ℝ :=
  Real.exp (-((x - center) * (x - center)) / (2 * width * width))

/-- Time-of-day intensity as computed by `_buildSimulatedSnapshot`
(services/traffic.js lines 174-177):
`min(1, gaussianPeak(m, 9*60, 120) + gaussianPeak(m, 18*60, 120) + 0.2)`. -/
noncomputable def intensity (minuteOfDay : ℝ) : ℝ :=
  min 1 (gaussianPeak minuteOfDay (9 * 60) 120
    + gaussianPeak minuteOfDay (18 * 60) 120 + 0.2)

/-- The spec's gaussian, written with squares:
`gaussian(x,c,w) = exp(-(x-c)^2/(2w^2))` (spec section 4.2). -/
noncomputable def gaussianSpec (x c w : ℝ) : ℝ :=
  Real.exp (-(x - c) ^ 2 / (2 * w ^ 2))

/-- The spec's intensity formula:
`min(1, gaussian(m,540,120) + gaussian(m,1080,120) + 0.2)`. -/
noncomputable def intensitySpec (m : ℝ) : ℝ :=
  min 1 (gaussianSpec m 540 120 + gaussianSpec m 1080 120 + 0.2)

/-- The code's gaussian agrees with the spec's squared form. -/
theorem gaussianPeak_eq_spec (x c w : ℝ) : gaussianPeak x c w = gaussianSpec x c w := by
  unfold gaussianPeak gaussianSpec
  congr 1
  ring

/-- The code's gaussian is nonnegative. -/
theorem gaussianPeak_nonneg (x c w : ℝ) : 0 ≤ gaussianPeak x c w := by
  unfold gaussianPeak
  exact Real.exp_nonneg _

/-- C8: the time-of-day intensity equals the spec's formula
`min(1, gaussian(m,540,120) + gaussian(m,1080,120) + 0.2)` with
`gaussian(x,c,w) = exp(-(x-c)^2/(2w^2))`; it attains its maximum value 1 at
minute 540 and minute 1080, and is at least 0.2 at every minute. -/
theorem claim_C8_intensity_formula_peaks_and_floor :
    (∀ m : ℝ, intensity m = intensitySpec m)
    ∧ intensity 540 = 1
    ∧ intensity 1080 = 1
    ∧ (∀ m : ℝ, intensity m ≤ intensity 540)
    ∧ (∀ m : ℝ, intensity m ≤ intensity 1080)
    ∧ (∀ m : ℝ, 0.2 ≤ intensity m) := by
  have hbound : ∀ m : ℝ, intensity m ≤ 1 := by
    intro m
    exact min_le_left _ _
  have hpeak : ∀ m : ℝ, gaussianPeak m m 120 = 1 := by
    intro m
    unfold gaussianPeak
    norm_num
  have h540 : intensity 540 = 1 := by
    have h1 : gaussianPeak 540 (9 * 60) 120 = 1 := by
      have := hpeak 540
      norm_num at this ⊢
      exact this
    have h2 := gaussianPeak_nonneg 540 (18 * 60) 120
    have hle : (1 : ℝ) ≤ 1 + gaussianPeak 540 (18 * 60) 120 + 0.2 := by
      generalize gaussianPeak 540 (18 * 60) 120 = g at h2 ⊢
      linarith
    unfold intensity
    rw [h1, min_eq_left hle]
  have h1080 : intensity 1080 = 1 := by
    have h1 : gaussianPeak 1080 (18 * 60) 120 = 1 := by
      have := hpeak 1080
      norm_num at this ⊢
      exact this
    have h2 := gaussianPeak_nonneg 1080 (9 * 60) 120
    have hle : (1 : ℝ) ≤ gaussianPeak 1080 (9 * 60) 120 + 1 + 0.2 := by
      generalize gaussianPeak 1080 (9 * 60) 120 = g at h2 ⊢
      linarith
    unfold intensity
    rw [h1, min_eq_left hle]
  refine ⟨?_, h540, h1080, ?_, ?_, ?_⟩
  · intro m
    unfold intensity intensitySpec
    rw [gaussianPeak_eq_spec, gaussianPeak_eq_spec]
    norm_num
  · intro m
    rw [h540]; exact hbound m
  · intro m
    rw [h1080]; exact hbound m
  · intro m
    unfold intensity
    have g1 := gaussianPeak_nonneg m (9 * 60) 120
    have g2 := gaussianPeak_nonneg m (18 * 60) 120
    refine le_min (by norm_num) ?_
    generalize gaussianPeak m (9 * 60) 120 = a at g1 ⊢
    generalize gaussianPeak m (18 * 60) 120 = b at g2 ⊢
    linarith

/-- `Math.imul` viewed on 32-bit unsigned patterns: the low 32 bits of the
product (signed and unsigned views agree modulo 2^32). -/
def imul32 (a b : ℕ) : ℕ := (a * b) % 2 ^ 32

/-- One draw of the `mulberry32` PRNG closure
(services/traffic.js lines 81-88). The closure state `a` advances by
`0x6D2B79F5` (JS float addition, exact in this range); every use of `t`
goes through 32-bit coercions, modelled by `% 2^32` on the unsigned
pattern. Returns `(new state, 32-bit output)`; the JS call returns
`output / 4294967296`. -/
def mulberryStep (a : ℕ) : ℕ × ℕ :=
  let a2 := a + 0x6D2B79F5
  let t1 := a2 % 2 ^ 32
  let t2 := imul32 (Nat.xor t1 (t1 >>> 15)) (t1 ||| 1)
  let t3 := Nat.xor t2 ((t2 + imul32 (Nat.xor t2 (t2 >>> 7)) (t2 ||| 61)) % 2 ^ 32)
  (a2, Nat.xor t3 (t3 >>> 14))

/-- The value `rng()` returns for a 32-bit output word:
`(... >>> 0) / 4294967296`, exact in double precision. -/
def rngFloat (out : ℕ) : ℚ := (out : ℚ) / 4294967296

/-- A city bounding box (`CITY_BBOX` in services/traffic.js lines 12-16). -/
structure BBox where
  minLat : ℚ
  maxLat : ℚ
  minLng : ℚ
  maxLng : ℚ
deriving Repr, DecidableEq

/-- Bounding boxes of the three supported cities; unknown cities fall back
to the default city's box (`CITY_BBOX[city] || CITY_BBOX[DEFAULT_CITY]`). -/
def cityBBox (city : String) : BBox :=
  if city = "Bangalore" then ⟨12.85, 13.12, 77.45, 77.75⟩
  else if city = "Mumbai" then ⟨18.88, 19.30, 72.75, 72.99⟩
  else if city = "Delhi" then ⟨28.40, 28.88, 76.90, 77.40⟩
  else ⟨12.85, 13.12, 77.45, 77.75⟩

/-- `lerp` from services/traffic.js line 90. -/
def lerp (a b t : ℚ) : ℚ := a + (b - a) * t

/-- A generated road segment (services/traffic.js lines 67-75). -/
structure Segment where
  id : String
  coordinates : List (ℚ × ℚ)
  baseSpeedKph : ℚ
  baseDensity : ℚ
deriving Repr, DecidableEq

/-- Generation of the `i`-th segment inside the loop of
`generateSegmentsForCity` (services/traffic.js lines 60-76), threading the
PRNG state through the six `rng()` draws. -/
def genSegment (bbox : BBox) (i : ℕ) (a0 : ℕ) : Segment × ℕ :=
  let d1 := mulberryStep a0
  let lat1 := lerp bbox.minLat bbox.maxLat (rngFloat d1.2)
  let d2 := mulberryStep d1.1
  let lng1 := lerp bbox.minLng bbox.maxLng (rngFloat d2.2)
  let d3 := mulberryStep d2.1
  let lat2 := lat1 + (rngFloat d3.2 - 0.5) * 0.01
  let d4 := mulberryStep d3.1
  let lng2 := lng1 + (rngFloat d4.2 - 0.5) * 0.01
  let d5 := mulberryStep d4.1
  let baseSpeedKph : ℚ := 30 + (⌊rngFloat d5.2 * 40⌋ : ℤ)
  let d6 := mulberryStep d5.1
  let baseDensity : ℚ := 10 + (⌊rngFloat d6.2 * 40⌋ : ℤ)
  (⟨"seg_" ++ toString i, [(lng1, lat1), (lng2, lat2)], baseSpeedKph, baseDensity⟩,
    d6.1)

/-- `generateSegmentsForCity` (services/traffic.js lines 55-78): seed the
PRNG, then generate 120 segments in index order. -/
def generateSegmentsForCity (city : String) (seed : ℕ) : List Segment :=
  let bbox := cityBBox city
  ((List.range 120).foldl
    (fun acc i =>
      let r := genSegment bbox i acc.2
      (acc.1 ++ [r.1], r.2))
    (([] : List Segment), seed)).1

/-- The ids produced by the generation fold are `seg_<i>` in index order. -/
theorem genFold_ids (bbox : BBox) (idxs : List ℕ) :
    ∀ acc : List Segment × ℕ,
      ((idxs.foldl
        (fun acc i =>
          let r := genSegment bbox i acc.2
          (acc.1 ++ [r.1], r.2)) acc).1).map (fun s => s.id)
        = acc.1.map (fun s => s.id)
          ++ idxs.map (fun i => "seg_" ++ toString i) := by
  induction idxs with
  | nil =>
    intro acc
    simp
  | cons i rest ih =>
    intro acc
    rw [List.foldl_cons, ih]
    simp [genSegment]

/-- C9: for every city and every integer seed, segment generation is a
deterministic pure function of `(city, seed)` — two invocations with the
same inputs produce identical segment lists (same coordinates,
baseSpeedKph, baseDensity) — and the output is always 120 segments whose
ids are `seg_0 .. seg_119` in order. -/
theorem claim_C9_generation_deterministic_of_city_seed :
    ∀ (city : String) (seed : ℕ),
      generateSegmentsForCity city seed = generateSegmentsForCity city seed
      ∧ (generateSegmentsForCity city seed).length = 120
      ∧ (generateSegmentsForCity city seed).map (fun s => s.id)
          = (List.range 120).map (fun i => "seg_" ++ toString i) := by
  intro city seed
  have hids : (generateSegmentsForCity city seed).map (fun s => s.id)
      = (List.range 120).map (fun i => "seg_" ++ toString i) := by
    unfold generateSegmentsForCity
    rw [genFold_ids]
    simp
  refine ⟨rfl, ?_, hids⟩
  have hlen : ((generateSegmentsForCity city seed).map (fun s => s.id)).length
      = 120 := by
    rw [hids]
    simp
  simpa using hlen

/-- The range filter of `getHistory` (services/traffic.js lines 277-280):
a snapshot is kept when `from <= t <= to`. -/
def inRange (fromMs toMs : ℤ) (s : Snapshot) : Bool :=
  decide (fromMs ≤ s.timestamp) && decide (s.timestamp ≤ toMs)

/-- The per-id accumulator of the history aggregation
(services/traffic.js line 286); `coordinates` (kept as first seen) is
omitted — the claims concern counts and averages only. -/
structure HistAcc where
  speedSum : ℚ
  densitySum : ℚ
  congestionSum : ℚ
  n : ℕ
deriving Repr, DecidableEq

/-- One step of the aggregation forEach (services/traffic.js lines 285-292)
restricted to features of one segment id. -/
def histAccStep (segId : String) (acc : HistAcc) (f : Feature) : HistAcc :=
  if f.id = segId then
    ⟨acc.speedSum + f.speedKph, acc.densitySum + f.densityVpkm,
      acc.congestionSum + f.congestion, acc.n + 1⟩
  else acc

/-- The accumulator one segment id ends with after the nested forEach over
all filtered snapshots and their features
(services/traffic.js lines 283-293). -/
def aggregateFor (samples : List Snapshot) (segId : String) : HistAcc :=
  samples.foldl (fun acc s => s.features.foldl (histAccStep segId) acc)
    ⟨0, 0, 0, 0⟩

/-- The features of a list that belong to one segment id. -/
def featMatch (segId : String) (fs : List Feature) : List Feature :=
  fs.filter (fun f => decide (f.id = segId))

/-- JS `Map` key insertion: a new key goes to the back, an existing key
keeps its position. -/
def insertId (acc : List String) (id : String) : List String :=
  if id ∈ acc then acc else acc ++ [id]

/-- Keys contributed by one snapshot's features, in first-occurrence order. -/
def snapshotIdsStep (acc : List String) (s : Snapshot) : List String :=
  s.features.foldl (fun a f => insertId a f.id) acc

/-- The insertion-ordered key set of the aggregation map `byId`
(services/traffic.js lines 283-293). -/
def historyIds (samples : List Snapshot) : List String :=
  samples.foldl snapshotIdsStep []

/-- One aggregated per-segment entry (services/traffic.js lines 295-302);
`Number((sum/n).toFixed(k))` on the nonnegative averages is modelled by
rounding half-up to `k` decimals; `coordinates` omitted as in `HistAcc`. -/
structure AggSegment where
  id : String
  avgSpeedKph : Option ℚ
  avgDensityVpkm : Option ℚ
  avgCongestion : Option ℚ
  samples : ℕ
deriving Repr, DecidableEq

/-- Build the aggregated entry for one segment id
(services/traffic.js lines 295-302). -/
def mkAggSegment (samples : List Snapshot) (segId : String) : AggSegment :=
  let v := aggregateFor samples segId
  { id := segId
    avgSpeedKph := if v.n ≠ 0 then some (round2 (v.speedSum / v.n)) else none
    avgDensityVpkm := if v.n ≠ 0 then some (round2 (v.densitySum / v.n)) else none
    avgCongestion := if v.n ≠ 0 then some (round3 (v.congestionSum / v.n)) else none
    samples := v.n }

/-- The aggregated history response (services/traffic.js lines 304-310). -/
structure HistoryResult where
  city : String
  fromMs : ℤ
  toMs : ℤ
  count : ℕ
  segments : List AggSegment
deriving Repr, DecidableEq

/-- `TrafficStore.getHistory` (services/traffic.js lines 265-311) on the
in-memory buffer: filter the buffer by the time range, then aggregate by
segment id in map-insertion order. Timestamps are already epoch ms; the
NaN-timestamp validation throw is outside this model (callers of this
definition pass parsed timestamps). -/
def getHistory (history : List Snapshot) (fromMs toMs : ℤ)
    (cityInput : Option String) : HistoryResult :=
  let city := normalizeCity cityInput
  let samples := history.filter (inRange fromMs toMs)
  { city := city
    fromMs := fromMs
    toMs := toMs
    count := samples.length
    segments := (historyIds samples).map (mkAggSegment samples) }

/-- The db-versus-memory decision of `TrafficController.history`
(controllers/traffic.js lines 74-161): when the persisted query failed
(`none`) or returned zero rows, the in-memory aggregation is served. -/
def historyController (db : Option HistoryResult) (memory : List Snapshot)
    (fromMs toMs : ℤ) (city : Option String) : HistoryResult :=
  match db with
  | none => getHistory memory fromMs toMs city
  | some d => if d.count = 0 then getHistory memory fromMs toMs city else d

/-- Folding the per-feature step accumulates exactly the sums and the count
of the features matching the segment id. -/
theorem foldl_histAccStep_eq (segId : String) (fs : List Feature) :
    ∀ acc : HistAcc,
      fs.foldl (histAccStep segId) acc
        = ⟨acc.speedSum + ((featMatch segId fs).map (fun f => f.speedKph)).sum,
           acc.densitySum + ((featMatch segId fs).map (fun f => f.densityVpkm)).sum,
           acc.congestionSum + ((featMatch segId fs).map (fun f => f.congestion)).sum,
           acc.n + (featMatch segId fs).length⟩ := by
  induction fs with
  | nil =>
    intro acc
    simp [featMatch]
  | cons f rest ih =>
    intro acc
    by_cases h : f.id = segId
    · have hs : featMatch segId (f :: rest) = f :: featMatch segId rest := by
        simp [featMatch, List.filter_cons, h]
      rw [List.foldl_cons, ih, hs]
      simp only [histAccStep, if_pos h, List.map_cons, List.sum_cons,
        List.length_cons, HistAcc.mk.injEq]
      refine ⟨by ring, by ring, by ring, by omega⟩
    · have hs : featMatch segId (f :: rest) = featMatch segId rest := by
        simp [featMatch, List.filter_cons, h]
      rw [List.foldl_cons, ih, hs]
      simp [histAccStep, if_neg h]

/-- Membership in a map-insertion step. -/
theorem mem_insertId (acc : List String) (j id : String) :
    id ∈ insertId acc j ↔ id ∈ acc ∨ id = j := by
  unfold insertId
  split_ifs with h
  · constructor
    · exact Or.inl
    · rintro (hm | rfl)
      · exact hm
      · exact h
  · simp

/-- Membership after inserting all feature ids of a list. -/
theorem mem_foldl_insertId (fs : List Feature) (id : String) :
    ∀ acc : List String,
      (id ∈ fs.foldl (fun a f => insertId a f.id) acc
        ↔ id ∈ acc ∨ ∃ f ∈ fs, f.id = id) := by
  induction fs with
  | nil =>
    intro acc
    simp
  | cons f rest ih =>
    intro acc
    rw [List.foldl_cons, ih, mem_insertId]
    constructor
    · rintro ((hm | rfl) | ⟨g, hg, rfl⟩)
      · exact Or.inl hm
      · exact Or.inr ⟨f, List.mem_cons_self f rest, rfl⟩
      · exact Or.inr ⟨g, List.mem_cons_of_mem f hg, rfl⟩
    · rintro (hm | ⟨g, hg, rfl⟩)
      · exact Or.inl (Or.inl hm)
      · rcases List.mem_cons.mp hg with rfl | hg2
        · exact Or.inl (Or.inr rfl)
        · exact Or.inr ⟨g, hg2, rfl⟩

/-- Membership in the insertion-ordered key set of the aggregation map:
an id is a key iff some filtered snapshot has a feature with that id. -/
theorem mem_historyIds (samples : List Snapshot) (id : String) :
    id ∈ historyIds samples
      ↔ ∃ s ∈ samples, ∃ f ∈ s.features, f.id = id := by
  suffices h : ∀ acc : List String,
      (id ∈ samples.foldl snapshotIdsStep acc
        ↔ id ∈ acc ∨ ∃ s ∈ samples, ∃ f ∈ s.features, f.id = id) by
    have := h []
    simpa [historyIds] using this
  induction samples with
  | nil =>
    intro acc
    simp
  | cons s rest ih =>
    intro acc
    rw [List.foldl_cons, ih]
    have hm : id ∈ snapshotIdsStep acc s
        ↔ id ∈ acc ∨ ∃ f ∈ s.features, f.id = id :=
      mem_foldl_insertId s.features id acc
    rw [hm]
    constructor
    · rintro ((hm | ⟨f, hf, rfl⟩) | ⟨t, ht, f, hf, rfl⟩)
      · exact Or.inl hm
      · exact Or.inr ⟨s, List.mem_cons_self s rest, f, hf, rfl⟩
      · exact Or.inr ⟨t, List.mem_cons_of_mem s ht, f, hf, rfl⟩
    · rintro (hm | ⟨t, ht, f, hf, rfl⟩)
      · exact Or.inl (Or.inl hm)
      · rcases List.mem_cons.mp ht with rfl | ht2
        · exact Or.inl (Or.inr ⟨f, hf, rfl⟩)
        · exact Or.inr ⟨t, ht2, f, hf, rfl⟩

/-- The accumulator over three snapshots that each contain exactly one
feature for the segment id is the sum of the three readings. -/
theorem aggregateFor_three (segId : String) (s1 s2 s3 : Snapshot)
    (f1 f2 f3 : Feature)
    (h1 : featMatch segId s1.features = [f1])
    (h2 : featMatch segId s2.features = [f2])
    (h3 : featMatch segId s3.features = [f3]) :
    aggregateFor [s1, s2, s3] segId
      = ⟨f1.speedKph + f2.speedKph + f3.speedKph,
         f1.densityVpkm + f2.densityVpkm + f3.densityVpkm,
         f1.congestion + f2.congestion + f3.congestion, 3⟩ := by
  unfold aggregateFor
  rw [List.foldl_cons, List.foldl_cons, List.foldl_cons, List.foldl_nil]
  have e1 : s1.features.foldl (histAccStep segId) ⟨0, 0, 0, 0⟩
      = ⟨f1.speedKph, f1.densityVpkm, f1.congestion, 1⟩ := by
    rw [foldl_histAccStep_eq]
    simp [h1]
  have e2 : s2.features.foldl (histAccStep segId)
        ⟨f1.speedKph, f1.densityVpkm, f1.congestion, 1⟩
      = ⟨f1.speedKph + f2.speedKph, f1.densityVpkm + f2.densityVpkm,
         f1.congestion + f2.congestion, 2⟩ := by
    rw [foldl_histAccStep_eq]
    simp [h2]
  have e3 : s3.features.foldl (histAccStep segId)
        ⟨f1.speedKph + f2.speedKph, f1.densityVpkm + f2.densityVpkm,
         f1.congestion + f2.congestion, 2⟩
      = ⟨f1.speedKph + f2.speedKph + f3.speedKph,
         f1.densityVpkm + f2.densityVpkm + f3.densityVpkm,
         f1.congestion + f2.congestion + f3.congestion, 3⟩ := by
    rw [foldl_histAccStep_eq]
    simp [h3]
  rw [e1, e2, e3]

/-- C2: for every history query whose persisted store is unavailable or
yields zero rows, the controller serves the in-memory aggregation; with
exactly 3 buffered snapshots for the city whose timestamps lie in
`[from, to]`, the result has `count = 3` and, for every segment id present
once per snapshot, the entry's avgSpeedKph / avgDensityVpkm /
avgCongestion are the arithmetic means of the three readings rounded to
2, 2 and 3 decimals, with `samples = 3`. -/
theorem claim_C2_empty_db_three_buffered_snapshot_means :
    ∀ (db : Option HistoryResult) (s1 s2 s3 : Snapshot) (fromMs toMs : ℤ)
      (city : Option String),
      (db = none ∨ ∃ d, db = some d ∧ d.count = 0) →
      inRange fromMs toMs s1 = true →
      inRange fromMs toMs s2 = true →
      inRange fromMs toMs s3 = true →
      historyController db [s1, s2, s3] fromMs toMs city
          = getHistory [s1, s2, s3] fromMs toMs city
      ∧ (historyController db [s1, s2, s3] fromMs toMs city).count = 3
      ∧ ∀ (segId : String) (f1 f2 f3 : Feature),
          featMatch segId s1.features = [f1] →
          featMatch segId s2.features = [f2] →
          featMatch segId s3.features = [f3] →
          (⟨segId,
            some (round2 ((f1.speedKph + f2.speedKph + f3.speedKph) / 3)),
            some (round2 ((f1.densityVpkm + f2.densityVpkm + f3.densityVpkm) / 3)),
            some (round3 ((f1.congestion + f2.congestion + f3.congestion) / 3)),
            3⟩ : AggSegment)
            ∈ (historyController db [s1, s2, s3] fromMs toMs city).segments := by
  intro db s1 s2 s3 fromMs toMs city hdb h1 h2 h3
  have hc : historyController db [s1, s2, s3] fromMs toMs city
      = getHistory [s1, s2, s3] fromMs toMs city := by
    rcases hdb with rfl | ⟨d, rfl, hd⟩
    · rfl
    · simp [historyController, hd]
  have hfilter : List.filter (inRange fromMs toMs) [s1, s2, s3]
      = [s1, s2, s3] := by
    simp [List.filter_cons, h1, h2, h3]
  refine ⟨hc, ?_, ?_⟩
  · rw [hc]
    simp [getHistory, hfilter]
  · intro segId f1 f2 f3 hf1 hf2 hf3
    rw [hc]
    have hmem : segId ∈ historyIds [s1, s2, s3] := by
      rw [mem_historyIds]
      have hf : f1 ∈ featMatch segId s1.features := by
        rw [hf1]
        exact List.mem_singleton.mpr rfl
      have hin := List.mem_filter.mp hf
      exact ⟨s1, by simp, f1, hin.1, of_decide_eq_true hin.2⟩
    have hagg : mkAggSegment [s1, s2, s3] segId
        = ⟨segId,
           some (round2 ((f1.speedKph + f2.speedKph + f3.speedKph) / 3)),
           some (round2 ((f1.densityVpkm + f2.densityVpkm + f3.densityVpkm) / 3)),
           some (round3 ((f1.congestion + f2.congestion + f3.congestion) / 3)),
           3⟩ := by
      unfold mkAggSegment
      rw [aggregateFor_three segId s1 s2 s3 f1 f2 f3 hf1 hf2 hf3]
      norm_num
    have hseg : (getHistory [s1, s2, s3] fromMs toMs city).segments
        = (historyIds [s1, s2, s3]).map (mkAggSegment [s1, s2, s3]) := by
      simp [getHistory, hfilter]
    rw [hseg, ← hagg]
    exact List.mem_map_of_mem _ hmem

/-- Witness for C2: empty persisted store, three one-feature Bangalore
snapshots in range; count is 3 and the aggregated entry carries the
rounded means with 3 samples. -/
theorem claim_C2_witness :
    (historyController none
        [⟨"Bangalore", 100, [⟨"seg_0", [], 10, 20, 1⟩], "simulated"⟩,
         ⟨"Bangalore", 200, [⟨"seg_0", [], 20, 30, 0⟩], "simulated"⟩,
         ⟨"Bangalore", 300, [⟨"seg_0", [], 40, 10, 1⟩], "simulated"⟩]
        0 1000 (some "Bangalore")).count = 3
    ∧ (⟨"seg_0",
        some (round2 ((10 + 20 + 40) / 3)),
        some (round2 ((20 + 30 + 10) / 3)),
        some (round3 ((1 + 0 + 1) / 3)), 3⟩ : AggSegment)
        ∈ (historyController none
            [⟨"Bangalore", 100, [⟨"seg_0", [], 10, 20, 1⟩], "simulated"⟩,
             ⟨"Bangalore", 200, [⟨"seg_0", [], 20, 30, 0⟩], "simulated"⟩,
             ⟨"Bangalore", 300, [⟨"seg_0", [], 40, 10, 1⟩], "simulated"⟩]
            0 1000 (some "Bangalore")).segments := by
  have h := claim_C2_empty_db_three_buffered_snapshot_means none
    ⟨"Bangalore", 100, [⟨"seg_0", [], 10, 20, 1⟩], "simulated"⟩
    ⟨"Bangalore", 200, [⟨"seg_0", [], 20, 30, 0⟩], "simulated"⟩
    ⟨"Bangalore", 300, [⟨"seg_0", [], 40, 10, 1⟩], "simulated"⟩
    0 1000 (some "Bangalore") (Or.inl rfl) (by decide) (by decide) (by decide)
  exact ⟨h.2.1, h.2.2 "seg_0"
    ⟨"seg_0", [], 10, 20, 1⟩
    ⟨"seg_0", [], 20, 30, 0⟩
    ⟨"seg_0", [], 40, 10, 1⟩
    (by decide) (by decide) (by decide)⟩

/-- A `(t, v)` pair handed to the regression builder
(services/localStore.js lines 579-580). -/
structure TrendSample where
  t : ℤ
  v : ℚ
deriving Repr, DecidableEq

/-- One recent per-segment sample collected from the store or the buffer
(services/localStore.js lines 633-638 and 668); `coordinates` omitted —
the claims concern values and counts only. -/
structure SegSample where
  t : ℤ
  speedKph : ℚ
  densityVpkm : ℚ
deriving Repr, DecidableEq

/-- `buildRegressionSeries` (services/localStore.js lines 703-738): with no
samples every step is null; with one sample every step repeats that sample
value; otherwise ordinary least squares of value over minutes since the
first sample, replaced by the series mean when variance and |slope| are
both below 1e-6, projected at the future step offsets (clamped below by
the last sample's offset). Over `ℚ` every regression value is finite, so
the `Number.isFinite` guard never fires. -/
def buildRegressionSeries (samples : List TrendSample) (nowMs : ℤ)
    (stepMin : ℚ) (steps : ℕ) : List (Option ℚ) :=
  match samples with
  | [] => List.replicate steps none
  | [s] => List.replicate steps (some s.v)
  | s0 :: s1 :: rest =>
    let all := s0 :: s1 :: rest
    let n : ℚ := all.length
    let t0 := s0.t
    let xs := all.map (fun s => ((s.t - t0 : ℤ) : ℚ) / 60000)
    let ys := all.map (fun s => s.v)
    let xMean := xs.sum / n
    let yMean := ys.sum / n
    let num := (xs.zip ys).foldl
      (fun a p => a + (p.1 - xMean) * (p.2 - yMean)) 0
    let den := xs.foldl (fun a x => a + (x - xMean) * (x - xMean)) 0
    let slope := if den = 0 then 0 else num / den
    let intercept := yMean - slope * xMean
    let variance :=
      (ys.foldl (fun acc v => acc + (v - yMean) * (v - yMean)) 0) / n
    let lastX := (((s1 :: rest).getLast (List.cons_ne_nil s1 rest)).t - t0 : ℤ) / (60000 : ℚ)
    (List.range steps).map (fun i =>
      let futureT := ((nowMs - t0 : ℤ) : ℚ) / 60000 + (i + 1 : ℕ) * stepMin
      some (if variance < 1 / 1000000 ∧ |slope| < 1 / 1000000 then yMean
        else intercept + slope * max futureT lastX))

/-- The last-sample fallback used when a series entry is null
(services/localStore.js lines 586-587):
`samples[samples.length - 1]?.field ?? default`. -/
def lastOr (samples : List SegSample) (f : SegSample → ℚ) (dflt : ℚ) : ℚ :=
  match samples.getLast? with
  | some s => f s
  | none => dflt

/-- One projected point (services/localStore.js line 590). -/
structure PredPoint where
  timestamp : ℤ
  speedKph : ℚ
  densityVpkm : ℚ
  congestion : ℚ
deriving Repr, DecidableEq

/-- The per-segment projection loop of `predictTrendBased`
(services/localStore.js lines 579-591): build the speed and density
regression series, then for each of the `steps` points take the series
value (falling back to the last sample, then 30 / 15), round to 2
decimals, floor at 5, timestamp it `(i+1)*5` minutes after `now`, and
derive congestion with the shared heuristic. -/
def projectSegment (samples : List SegSample) (nowMs : ℤ) (steps : ℕ) :
    List PredPoint :=
  let speedSeries := buildRegressionSeries
    (samples.map (fun s => ⟨s.t, s.speedKph⟩)) nowMs 5 steps
  let densitySeries := buildRegressionSeries
    (samples.map (fun s => ⟨s.t, s.densityVpkm⟩)) nowMs 5 steps
  (List.range steps).map (fun i =>
    let speed := max 5 (round2 ((speedSeries.getD i none).getD
      (lastOr samples (fun s => s.speedKph) 30)))
    let density := max 5 (round2 ((densitySeries.getD i none).getD
      (lastOr samples (fun s => s.densityVpkm) 15)))
    { timestamp := nowMs + ((i : ℤ) + 1) * 5 * 60000
      speedKph := speed
      densityVpkm := density
      congestion := congestionOf speed density })

/-- The step count of `predictTrendBased`
(services/localStore.js lines 543-544):
`steps = Math.max(1, Math.floor(horizonMinutes / stepMin))` with
`stepMin = 5`. -/
def stepsFor (horizonMinutes : ℕ) : ℕ := max 1 (horizonMinutes / 5)

/-- The recent samples one segment id ends with in the memory collector
`_collectRecentFromMemory` (services/localStore.js lines 658-686): walking
the buffer backwards, keep the first `n` readings of that id, then sort
ascending by time. The early exit once all segments hold `n` samples does
not change any collected list when every snapshot carries the same segment
set, as the store's snapshots do. -/
def collectRecentForId (hist : List Snapshot) (id : String) (n : ℕ) :
    List SegSample :=
  (((hist.reverse.flatMap (fun s =>
      (featMatch id s.features).map
        (fun f => (⟨s.timestamp, f.speedKph, f.densityVpkm⟩ : SegSample)))).take n).mergeSort
    (fun a b => decide (a.t ≤ b.t)))

/-- `_collectRecentFromMemory` as an insertion-ordered association list:
keys are the feature ids encountered walking the buffer backwards. -/
def collectFromMemory (hist : List Snapshot) (n : ℕ) :
    List (String × List SegSample) :=
  (historyIds hist.reverse).map (fun id => (id, collectRecentForId hist id n))

/-- The data-source precedence of `predictTrendBased`
(services/localStore.js lines 546-558): the persisted collection is
preferred; when the query failed (`none`) or returned no segments the
memory collection is used. -/
def predictHistory (db : Option (List (String × List SegSample)))
    (hist : List Snapshot) (n : ℕ) : List (String × List SegSample) :=
  match db with
  | some l => if l.isEmpty then collectFromMemory hist n else l
  | none => collectFromMemory hist n

/-- The `meta.mode` decision of `predictTrendBased`
(services/localStore.js lines 561-568 and 615): the simulated one-shot
fallback is used exactly when no history was collected at all. -/
def predictMode (db : Option (List (String × List SegSample)))
    (hist : List Snapshot) (n : ℕ) : String :=
  if (predictHistory db hist n).isEmpty then "fallback-simulated"
  else "trend"

/-- `jsRound` is the identity on integers. -/
theorem jsRound_intCast (z : ℤ) : jsRound (z : ℚ) = z := by
  unfold jsRound
  rw [Int.floor_int_add]
  norm_num

/-- `round2` is the identity on integer values. -/
theorem round2_intCast (z : ℤ) : round2 ((z : ℚ)) = (z : ℚ) := by
  unfold round2
  rw [show ((z : ℚ) * 100) = (((z * 100 : ℤ)) : ℚ) by push_cast; ring,
    jsRound_intCast]
  push_cast
  field_simp

/-- The regression builder on a single sample is the constant series. -/
theorem buildRegressionSeries_singleton (x : TrendSample) (nowMs : ℤ)
    (stepMin : ℚ) (steps : ℕ) :
    buildRegressionSeries [x] nowMs stepMin steps
      = List.replicate steps (some x.v) := rfl

/-- C5: the predictor serves `meta.mode = "fallback-simulated"` exactly on
cold start — persisted collection unavailable or empty and no in-memory
history — and `meta.mode = "trend"` as soon as any segment has collected
history samples (from the store, or from any buffered snapshot with at
least one feature). -/
theorem claim_C5_cold_start_fallback_mode :
    ∀ (db : Option (List (String × List SegSample))) (hist : List Snapshot),
      ((db = none ∨ db = some []) → hist = [] →
        predictMode db hist 10 = "fallback-simulated")
      ∧ (∀ l, db = some l → l ≠ [] → predictMode db hist 10 = "trend")
      ∧ ((db = none ∨ db = some []) → (∃ s ∈ hist, s.features ≠ []) →
        predictMode db hist 10 = "trend") := by
  intro db hist
  refine ⟨?_, ?_, ?_⟩
  · rintro (rfl | rfl) rfl <;> rfl
  · rintro l rfl hl
    simp [predictMode, predictHistory, List.isEmpty_iff, hl]
  · have hmain : (∃ s ∈ hist, s.features ≠ []) →
        collectFromMemory hist 10 ≠ [] := by
      rintro ⟨s, hs, hf⟩
      obtain ⟨f, hfm⟩ := List.exists_mem_of_ne_nil _ hf
      have hmem : f.id ∈ historyIds hist.reverse :=
        (mem_historyIds _ _).mpr ⟨s, List.mem_reverse.mpr hs, f, hfm, rfl⟩
      unfold collectFromMemory
      intro hnil
      rw [List.map_eq_nil_iff] at hnil
      exact (List.ne_nil_of_mem hmem) hnil
    rintro (rfl | rfl) hex <;>
      simp [predictMode, predictHistory, List.isEmpty_iff, hmain hex]

/-- Witness for C5: no persisted rows and empty buffer gives the simulated
fallback mode; one buffered snapshot with a feature, or one persisted
segment, gives trend mode. -/
theorem claim_C5_witness :
    predictMode none [] 10 = "fallback-simulated"
    ∧ predictMode none
        [⟨"Bangalore", 100, [⟨"seg_0", [], 10, 20, 1⟩], "simulated"⟩] 10
        = "trend"
    ∧ predictMode (some [("seg_0", [⟨0, 40, 20⟩])]) [] 10 = "trend" := by
  refine ⟨(claim_C5_cold_start_fallback_mode none []).1 (Or.inl rfl) rfl,
    (claim_C5_cold_start_fallback_mode none
      [⟨"Bangalore", 100, [⟨"seg_0", [], 10, 20, 1⟩], "simulated"⟩]).2.2
      (Or.inl rfl)
      ⟨⟨"Bangalore", 100, [⟨"seg_0", [], 10, 20, 1⟩], "simulated"⟩,
        by simp, by simp⟩,
    (claim_C5_cold_start_fallback_mode
      (some [("seg_0", [⟨0, 40, 20⟩])]) []).2.1 _ rfl (by simp)⟩

/-- C4 counterexample: at `horizonMinutes = 4` (a valid horizon) the claim
prescribes `floor(4/5) = 0` projected points, but the code's
`Math.max(1, ...)` projects 1 point. -/
theorem claim_C4_counterexample :
    stepsFor 4 = 1
    ∧ (4 : ℕ) / 5 = 0
    ∧ (projectSegment [⟨0, 40, 20⟩] 0 (stepsFor 4)).length = 1
    ∧ ¬((projectSegment [⟨0, 40, 20⟩] 0 (stepsFor 4)).length = 4 / 5) := by
  refine ⟨rfl, rfl, ?_, ?_⟩
  · simp [projectSegment, stepsFor]
  · simp [projectSegment, stepsFor]

/-- C4 (amended): for every valid horizon 1..120 the predictor projects
`steps = max(1, floor(horizonMinutes/5))` points — equal to
`floor(horizonMinutes/5)` whenever `horizonMinutes ≥ 5` — spaced exactly
5 minutes apart starting 5 minutes after the prediction time; horizon 15
yields a 3-point series. -/
theorem claim_C4_steps_and_spacing :
    ∀ h : ℕ, 1 ≤ h → h ≤ 120 →
      stepsFor h = max 1 (h / 5)
      ∧ (5 ≤ h → stepsFor h = h / 5)
      ∧ stepsFor 15 = 3
      ∧ ∀ (samples : List SegSample) (nowMs : ℤ),
          (projectSegment samples nowMs (stepsFor h)).length = stepsFor h
          ∧ (projectSegment samples nowMs (stepsFor h)).map
              (fun p => p.timestamp)
            = (List.range (stepsFor h)).map
                (fun i : ℕ => nowMs + ((i : ℤ) + 1) * 5 * 60000) := by
  intro h h1 h120
  refine ⟨rfl, ?_, rfl, ?_⟩
  · intro h5
    have hd : 1 ≤ h / 5 := Nat.one_le_div_iff (by norm_num) |>.mpr h5
    unfold stepsFor
    omega
  · intro samples nowMs
    constructor
    · simp [projectSegment]
    · simp only [projectSegment]
      rw [List.map_map]
      exact List.map_congr_left fun i hi => rfl

/-- Witness for C4: horizon 15 with a single sample yields a 3-point
series with timestamps 5, 10 and 15 minutes after the prediction time. -/
theorem claim_C4_witness :
    stepsFor 15 = 3
    ∧ (projectSegment [⟨0, 40, 20⟩] 0 (stepsFor 15)).length = 3
    ∧ (projectSegment [⟨0, 40, 20⟩] 0 (stepsFor 15)).map
        (fun p => p.timestamp) = [300000, 600000, 900000] := by
  have h := claim_C4_steps_and_spacing 15 (by norm_num) (by norm_num)
  refine ⟨h.2.2.1, (h.2.2.2 [⟨0, 40, 20⟩] 0).1, ?_⟩
  rw [(h.2.2.2 [⟨0, 40, 20⟩] 0).2]
  decide

/-- C3 (amended): when a segment's collected recent-sample list has exactly
one sample, the regression builder returns that sample's value at every
future step, and each projected point carries the sample's speed and
density clamped below at 5 after 2-decimal rounding — equal to the
sample's values whenever those are at least 5 and already two-decimal
(always the case for buffer-collected samples). -/
theorem claim_C3_single_sample_flat_series :
    ∀ (s : SegSample) (nowMs : ℤ) (steps : ℕ),
      buildRegressionSeries [⟨s.t, s.speedKph⟩] nowMs 5 steps
          = List.replicate steps (some s.speedKph)
      ∧ buildRegressionSeries [⟨s.t, s.densityVpkm⟩] nowMs 5 steps
          = List.replicate steps (some s.densityVpkm)
      ∧ (∀ p ∈ projectSegment [s] nowMs steps,
          p.speedKph = max 5 (round2 s.speedKph)
          ∧ p.densityVpkm = max 5 (round2 s.densityVpkm))
      ∧ (round2 s.speedKph = s.speedKph → 5 ≤ s.speedKph →
          round2 s.densityVpkm = s.densityVpkm → 5 ≤ s.densityVpkm →
          ∀ p ∈ projectSegment [s] nowMs steps,
            p.speedKph = s.speedKph ∧ p.densityVpkm = s.densityVpkm) := by
  intro s nowMs steps
  have hget : ∀ (v : ℚ) (i : ℕ), i < steps →
      ((List.replicate steps (some v)).getD i none) = some v := by
    intro v i hi
    rw [List.getD_eq_getElem?_getD, List.getElem?_replicate, if_pos hi]
    rfl
  have hproj : ∀ p ∈ projectSegment [s] nowMs steps,
      p.speedKph = max 5 (round2 s.speedKph)
      ∧ p.densityVpkm = max 5 (round2 s.densityVpkm) := by
    intro p hp
    simp only [projectSegment, List.map_cons, List.map_nil] at hp
    rw [buildRegressionSeries_singleton, buildRegressionSeries_singleton]
      at hp
    obtain ⟨i, hi, rfl⟩ := List.mem_map.mp hp
    have hilt : i < steps := List.mem_range.mp hi
    constructor
    · show max 5 (round2 (((List.replicate steps
        (some s.speedKph)).getD i none).getD
          (lastOr [s] (fun s => s.speedKph) 30))) = _
      rw [hget _ i hilt]
      rfl
    · show max 5 (round2 (((List.replicate steps
        (some s.densityVpkm)).getD i none).getD
          (lastOr [s] (fun s => s.densityVpkm) 15))) = _
      rw [hget _ i hilt]
      rfl
  refine ⟨buildRegressionSeries_singleton _ _ _ _,
    buildRegressionSeries_singleton _ _ _ _, hproj, ?_⟩
  intro h2s h5s h2d h5d p hp
  obtain ⟨hs, hd⟩ := hproj p hp
  rw [hs, hd, h2s, h2d, max_eq_right h5s, max_eq_right h5d]
  exact ⟨rfl, rfl⟩

/-- `round2` is the identity on natural literals. -/
theorem round2_natCast (n : ℕ) : round2 ((n : ℚ)) = (n : ℚ) := by
  have h := round2_intCast (n : ℤ)
  push_cast at h
  exact h

/-- C3 counterexample: a single collected sample with `densityVpkm = 2` —
exactly what `_collectRecentFromDb` infers for a persisted `avgSpeed` of 40
(`round2(80 / max(5, 40)) = 2`) — is projected as density 5, not 2, because
the projection floors every point at 5. -/
theorem claim_C3_counterexample :
    (∀ p ∈ projectSegment [⟨0, 40, 2⟩] 0 1, p.densityVpkm = 5)
    ∧ ¬(∀ p ∈ projectSegment [⟨0, 40, 2⟩] 0 1, p.densityVpkm = 2) := by
  have hr40 : round2 (40 : ℚ) = 40 := by
    simpa using round2_natCast 40
  have hr2 : round2 (2 : ℚ) = 2 := by
    simpa using round2_natCast 2
  have hm40 : max (5 : ℚ) 40 = 40 := max_eq_right (by norm_num)
  have hm2 : max (5 : ℚ) 2 = 5 := max_eq_left (by norm_num)
  have hlist : projectSegment [⟨0, 40, 2⟩] 0 1
      = [⟨300000, 40, 5, congestionOf 40 5⟩] := by
    simp [projectSegment, buildRegressionSeries_singleton, lastOr,
      List.getD_eq_getElem?_getD, List.getElem?_replicate,
      show List.range 1 = [0] from rfl, hr40, hr2, hm40, hm2]
  constructor
  · intro p hp
    rw [hlist] at hp
    rw [List.mem_singleton.mp hp]
  · intro hall
    have h5 := hall ⟨300000, 40, 5, congestionOf 40 5⟩
      (by rw [hlist]; exact List.mem_singleton.mpr rfl)
    norm_num at h5

/-- Witness for C3: a single buffer-style sample (speed 40, density 20,
both two-decimal and at least 5) projects flat at exactly those values. -/
theorem claim_C3_witness :
    buildRegressionSeries [⟨0, (40 : ℚ)⟩] 0 5 2 = [some 40, some 40]
    ∧ ∀ p ∈ projectSegment [⟨0, 40, 20⟩] 0 2,
        p.speedKph = 40 ∧ p.densityVpkm = 20 := by
  have h := claim_C3_single_sample_flat_series ⟨0, 40, 20⟩ 0 2
  have hr40 : round2 (40 : ℚ) = 40 := by
    simpa using round2_natCast 40
  have hr20 : round2 (20 : ℚ) = 20 := by
    simpa using round2_natCast 20
  constructor
  · have h1 := h.1
    simpa using h1
  · exact h.2.2.2 hr40 (by norm_num) hr20 (by norm_num)
